import Mathlib

/-!
Shallow embedding of the query engine of the `todo-list` repository
(`src/query/...`): the dynamically typed value model with its conversion
rules (`evaluator/value/conversion.rs`), the binary/unary operations on
values (`evaluator/value/operations.rs`), the result-set container
(`evaluator/result_set.rs`), the projection column computation
(`evaluator/query.rs`) and the nom-based query parser (`ast/parser.rs`,
`ast/mod.rs`).

Modelling conventions:
* Rust `i64` is modelled by `Int` together with explicit range checks
  against `-2^63` and `2^63 - 1` where the code checks overflow.
* Rust `f64` is modelled by `Rat`, holding the exact decimal value of a
  parsed float literal.  IEEE-754 rounding, infinities and NaN are not
  modelled; no claim below depends on a float value.
* `chrono::DateTime<Utc>` is modelled by its Unix timestamp in seconds
  (an `Int`); the chrono parsing/formatting for the single format string
  `"%Y-%m-%d %H:%M"` used by the code is modelled explicitly.
* `Result<T, E>` is `Except E T`; error `reason` strings carried by the
  Rust error variants are dropped (no claim inspects them).
-/

set_option maxRecDepth 100000

namespace TodoList

/-- Convenient names for the three characters that the string-literal
grammar treats specially. -/
def dqChar : Char := Char.ofNat 34

/-- The backslash character. -/
def bsChar : Char := Char.ofNat 92

/-- The single-quote character. -/
def sqChar : Char := Char.ofNat 39

/-- Alias for `Bool`, usable inside namespaces where a constructor named
`Bool` shadows it. -/
abbrev BoolT := Bool

/-- Alias for `String`, usable inside namespaces where a constructor
named `String` shadows it. -/
abbrev StringT := String

/-- Rust `i64::MIN`. -/
def i64Min : Int := -(2 ^ 63)

/-- Rust `i64::MAX`. -/
def i64Max : Int := 2 ^ 63 - 1

/-- Rust `enum Number { Int(i64), Float(f64) }` from `evaluator/value.rs`.
The `f64` payload is modelled by a rational number (see file header). -/
inductive Number where
  | Int (i : Int)
  | Float (f : Rat)
deriving DecidableEq

/-- Alias for `Number`, usable inside namespaces where a constructor
named `Number` shadows it. -/
abbrev NumberT := Number

/-- Rust `Number::as_i64`: `Int` passes through, `Float` is `f64 as i64`,
i.e. truncation toward zero saturating at the `i64` range. -/
def Number.as_i64 : NumberT → ℤ
  | .Int i => i
  | .Float f =>
    let t : ℤ := if f < 0 then f.ceil else f.floor
    min i64Max (max i64Min t)

/-- Rust `enum Value` from `evaluator/value.rs`; `DateTime` carries the
Unix timestamp in seconds. -/
inductive Value where
  | Null
  | Bool (b : Bool)
  | Number (n : Number)
  | String (s : String)
  | DateTime (ts : Int)
deriving DecidableEq

/-- Rust `enum Type` from `evaluator/value/conversion.rs` (named `Type'`
because `Type` is reserved in Lean). -/
inductive Type' where
  | DateTime
  | Number
  | Bool
  | String
  | Null
deriving DecidableEq

/-- Rust `Type::precedence`: the `repr(u8)` discriminants
`DateTime = 0, Number = 1, Bool = 3, String = 4, Null = 5`
(note the deliberate gap at 2). -/
def Type'.precedence : Type' → Nat
  | .DateTime => 0
  | .Number => 1
  | .Bool => 3
  | .String => 4
  | .Null => 5

/-- Rust `Value::type` (`Value::r#type`). -/
def Value.type : Value → Type'
  | .Null => .Null
  | .Bool _ => .Bool
  | .Number _ => .Number
  | .String _ => .String
  | .DateTime _ => .DateTime

/-- Rust `enum ConversionError`; the `reason: String` field of `Failed`
is dropped. -/
inductive ConversionError where
  | NotAllowed (fromType toType : Type')
  | Failed (value : Value) (destType : Type')
deriving DecidableEq

/-- Rust `enum BinaryOp` from `ast/expression.rs`. -/
inductive BinaryOp where
  | Gt
  | Lt
  | Gte
  | Lte
  | Eq
  | Like
  | And
  | Or
deriving DecidableEq

/-- Rust `enum UnaryOp` from `ast/expression.rs`. -/
inductive UnaryOp where
  | Not
deriving DecidableEq

/-- Rust `enum BinaryOperationError` from `evaluator/value/operations.rs`
(reason string of `Failed` dropped). -/
inductive BinaryOperationError where
  | Unsupported (left right : Type') (operator : BinaryOp)
  | Failed (operation : BinaryOp) (left right : Value)
deriving DecidableEq

/-- Rust `enum UnaryOperationError` from `evaluator/value/operations.rs`. -/
inductive UnaryOperationError where
  | Unsupported (type' : Type') (operation : BinaryOp)
  | Failed (operation : BinaryOp) (value : Value)
deriving DecidableEq

/-- Rust `enum ReflectError` from `evaluator/reflect.rs`. -/
inductive ReflectError where
  | UnsupportedType (field type' : String)
  | NoField (field : String)
deriving DecidableEq

/-- Rust `enum EvaluationError` from `query/mod.rs`. -/
inductive EvaluationError where
  | Reflect (e : ReflectError)
  | Conversion (e : ConversionError)
  | BinaryOperation (e : BinaryOperationError)
  | UnaryOperation (e : UnaryOperationError)
deriving DecidableEq

/-- Decidable equality for `Except`, so results of the embedded fallible
functions can be compared by `decide`. -/
instance exceptDecEq {ε α : Type} [DecidableEq ε] [DecidableEq α] : DecidableEq (Except ε α) := fun x y =>
  match x, y with
  | .ok a, .ok b => if h : a = b then isTrue (by rw [h]) else isFalse (by simp [h])
  | .error a, .error b => if h : a = b then isTrue (by rw [h]) else isFalse (by simp [h])
  | .ok _, .error _ => isFalse (by simp)
  | .error _, .ok _ => isFalse (by simp)

/-- Lift a conversion error into an evaluation error (the `#[from]`
conversion used by the `?` operator in the Rust code). -/
def liftConv {α : Type} : Except ConversionError α → Except EvaluationError α
  | .ok a => .ok a
  | .error e => .error (.Conversion e)

/-! ### Model of the chrono calendar arithmetic the code delegates to -/

/-- Days since 1970-01-01 of the civil date `y-m-d` (Howard Hinnant's
`days_from_civil`, the algorithm underlying chrono's calendar).  Uses
floor division; for the argument ranges produced by the parser this
agrees with chrono. -/
def daysFromCivil (y m d : Int) : Int :=
  let yy := if m ≤ 2 then y - 1 else y
  let era := Int.fdiv yy 400
  let yoe := yy - era * 400
  let mp := Int.emod (m + 9) 12
  let doy := Int.fdiv (153 * mp + 2) 5 + d - 1
  let doe := yoe * 365 + Int.fdiv yoe 4 - Int.fdiv yoe 100 + doy
  era * 146097 + doe - 719468

/-- Inverse of `daysFromCivil` (Hinnant's `civil_from_days`); used only to
format a `DateTime` value back to text. -/
def civilFromDays (z0 : Int) : Int × Int × Int :=
  let z := z0 + 719468
  let era := Int.fdiv z 146097
  let doe := z - era * 146097
  let yoe := Int.fdiv (doe - Int.fdiv doe 1460 + Int.fdiv doe 36524 - Int.fdiv doe 146096) 365
  let y := yoe + era * 400
  let doy := doe - (365 * yoe + Int.fdiv yoe 4 - Int.fdiv yoe 100)
  let mp := Int.fdiv (5 * doy + 2) 153
  let d := doy - Int.fdiv (153 * mp + 2) 5 + 1
  let m := if mp < 10 then mp + 3 else mp - 9
  (if m ≤ 2 then y + 1 else y, m, d)

/-- Whether `y` is a leap year (proleptic Gregorian, as in chrono). -/
def isLeapYear (y : Int) : Bool :=
  (Int.emod y 4 == 0 && Int.emod y 100 != 0) || Int.emod y 400 == 0

/-- Number of days of month `m` in year `y`. -/
def daysInMonth (y m : Int) : Int :=
  if m == 2 then (if isLeapYear y then 29 else 28)
  else if m == 4 || m == 6 || m == 9 || m == 11 then 30
  else 31

/-- Smallest timestamp representable by chrono (`NaiveDate::MIN` is
`-262143-01-01`). -/
def minTimestamp : Int := daysFromCivil (-262143) 1 1 * 86400

/-- Largest timestamp representable by chrono (`NaiveDate::MAX` is
`+262142-12-31`, end of day). -/
def maxTimestamp : Int := daysFromCivil 262142 12 31 * 86400 + 86399

/-- Model of `chrono::DateTime::from_timestamp(secs, 0)`: succeeds iff the
timestamp is within chrono's representable range. -/
def fromTimestamp? (secs : Int) : Option Int :=
  if minTimestamp ≤ secs && secs ≤ maxTimestamp then some secs else none

/-- Take a run of decimal digits of length between `lo` and `hi` from the
front of the input; returns the value and the rest. -/
def takeDigits (lo hi : Nat) (s : List Char) : Option (Nat × List Char) :=
  let ds := (s.take hi).takeWhile Char.isDigit
  if lo ≤ ds.length then
    some (ds.foldl (fun a c => a * 10 + (c.toNat - 48)) 0, s.drop ds.length)
  else none

/-- Model of
`chrono::NaiveDateTime::parse_from_str(s, "%Y-%m-%d %H:%M").and_utc().timestamp()`:
a (possibly negative) year, month, day, hour and minute with the literal
separators of the format string, the whole input consumed, and the field
values validated against the calendar.  The numeric fields accept the
digit-count flexibility chrono gives them (`%Y` up to 6 digits, the rest
up to 2). -/
def parseDateTimeMinute (s : String) : Option Int := do
  let (neg, s0) := match s.toList with
    | c :: rest => if c = '-' then (true, rest) else if c = '+' then (false, rest) else (false, s.toList)
    | [] => (false, [])
  let (yn, s1) ← takeDigits 1 6 s0
  let y : Int := if neg then -(yn : Int) else (yn : Int)
  let s2 ← if s1.head? = some '-' then some s1.tail else none
  let (m, s3) ← takeDigits 1 2 s2
  let s4 ← if s3.head? = some '-' then some s3.tail else none
  let (d, s5) ← takeDigits 1 2 s4
  let s6 ← if s5.head? = some ' ' then some s5.tail else none
  let (h, s7) ← takeDigits 1 2 s6
  let s8 ← if s7.head? = some ':' then some s7.tail else none
  let (mi, s9) ← takeDigits 1 2 s8
  if s9 = [] && 1 ≤ m && m ≤ 12 && 1 ≤ (d : Int) && (d : Int) ≤ daysInMonth y m
      && h ≤ 23 && mi ≤ 59 && -262143 ≤ y && y ≤ 262142 then
    some (daysFromCivil y m d * 86400 + (h : Int) * 3600 + (mi : Int) * 60)
  else none

/-- Left-pad the decimal representation of `n` with zeros to `width`
digits, with a leading minus sign for negative numbers. -/
def padInt (width : Nat) (n : Int) : String :=
  let digits := toString n.natAbs
  let pad := String.mk (List.replicate (width - digits.length) '0')
  (if n < 0 then "-" else "") ++ pad ++ digits

/-- Model of chrono's formatting with `"%Y-%m-%d %H:%M"` (used by
`Value`'s `Display` and by `cast_to_string`). -/
def formatDateTime (ts : Int) : String :=
  let days := Int.fdiv ts 86400
  let sod := ts - days * 86400
  let c := civilFromDays days
  padInt 4 c.1 ++ "-" ++ padInt 2 c.2.1 ++ "-" ++ padInt 2 c.2.2 ++ " "
    ++ padInt 2 (Int.fdiv sod 3600) ++ ":" ++ padInt 2 (Int.emod (Int.fdiv sod 60) 60)

/-! ### String-to-number parsing used by the casts (Rust `FromStr`) -/

/-- Value of a non-empty all-digit character list. -/
def digitsVal (ds : List Char) : Nat :=
  ds.foldl (fun a c => a * 10 + (c.toNat - 48)) 0

/-- Rust `i64::from_str`: optional sign, one or more digits, nothing else,
overflow checked. -/
def rustParseI64 (s : String) : Option Int :=
  let (neg, ds) := match s.toList with
    | c :: rest => if c = '-' then (true, rest) else if c = '+' then (false, rest) else (false, s.toList)
    | [] => (false, [])
  if ds ≠ [] && ds.all Char.isDigit then
    let v : Int := if neg then -((digitsVal ds : Nat) : Int) else ((digitsVal ds : Nat) : Int)
    if i64Min ≤ v && v ≤ i64Max then some v else none
  else none

/-- Ten to an integer power, as a rational. -/
def pow10 (e : Int) : Rat :=
  if 0 ≤ e then ((10 ^ e.toNat : Nat) : Rat) else 1 / ((10 ^ (-e).toNat : Nat) : Rat)

/-- Rust `f64::from_str`, restricted to finite decimal literals:
`sign? (digits ['.' digits?] | '.' digits | digits '.') exponent?`.
The `inf`/`infinity`/`nan` forms accepted by Rust are not modelled (they
have no rational value); no claim depends on them. -/
def rustParseF64 (s : String) : Option Rat := do
  let (neg, l0) := match s.toList with
    | c :: rest => if c = '-' then (true, rest) else if c = '+' then (false, rest) else (false, s.toList)
    | [] => (false, [])
  let intDs := l0.takeWhile Char.isDigit
  let l1 := l0.drop intDs.length
  let (fracDs, l2) ←
    match l1 with
    | c :: rest =>
      if c = '.' then
        let fs := rest.takeWhile Char.isDigit
        some (fs, rest.drop fs.length)
      else some ([], l1)
    | [] => some ([], [])
  if intDs = [] && fracDs = [] then none else
  let (expVal, l3) ←
    match l2 with
    | c :: rest =>
      if c = 'e' || c = 'E' then
        let (eneg, r1) := match rest with
          | c2 :: r2 => if c2 = '-' then (true, r2) else if c2 = '+' then (false, r2) else (false, rest)
          | [] => (false, rest)
        let eds := r1.takeWhile Char.isDigit
        if eds = [] then none
        else some ((if eneg then -((digitsVal eds : Nat) : Int) else ((digitsVal eds : Nat) : Int)), r1.drop eds.length)
      else some ((0 : Int), l2)
    | [] => some ((0 : Int), [])
  if l3 ≠ [] then none else
  let mant : Rat := ((digitsVal intDs : Nat) : Rat) + ((digitsVal fracDs : Nat) : Rat) / pow10 (fracDs.length : Int)
  let v := mant * pow10 expVal
  some (if neg then -v else v)

/-- Rust `Number::from_str` (`evaluator/value.rs`): try `i64` first, fall
back to `f64`. -/
def Number.fromStr? (s : String) : Option Number :=
  match rustParseI64 s with
  | some i => some (.Int i)
  | none => (rustParseF64 s).map .Float

/-- Rust `bool::from_str`: exactly `true` or `false`. -/
def rustParseBool (s : String) : Option Bool :=
  if s = "true" then some true else if s = "false" then some false else none

/-- Display of a `Number` (Rust `Display for Number`).  The `Float` case
of Rust's shortest-round-trip formatting is approximated (no claim
depends on it). -/
def Number.display : Number → String
  | .Int i => toString i
  | .Float f => if f.den = 1 then toString f.num else toString f

/-! ### The casts of `evaluator/value/conversion.rs` -/

/-- Rust `Value::cast_to_datetime`. -/
def Value.cast_to_datetime : Value → Except ConversionError ℤ
  | .DateTime dt => .ok dt
  | .Number n =>
    match fromTimestamp? n.as_i64 with
    | some dt => .ok dt
    | none => .error (.Failed (.Number n) .DateTime)
  | .String s =>
    match parseDateTimeMinute s with
    | some dt => .ok dt
    | none => .error (.Failed (.String s) .DateTime)
  | v => .error (.NotAllowed v.type .DateTime)

/-- Rust `Value::cast_to_number`. -/
def Value.cast_to_number : Value → Except ConversionError NumberT
  | .Number n => .ok n
  | .Bool b => .ok (.Int (if b then 1 else 0))
  | .DateTime dt => .ok (.Int dt)
  | .String s =>
    match Number.fromStr? s with
    | some n => .ok n
    | none => .error (.Failed (.String s) .Number)
  | v => .error (.NotAllowed v.type .Number)

/-- Rust `Value::cast_to_string`. -/
def Value.cast_to_string : Value → Except ConversionError StringT
  | .String s => .ok s
  | .Bool b => .ok (if b then "true" else "false")
  | .Number n => .ok n.display
  | .DateTime dt => .ok (formatDateTime dt)
  | v => .error (.NotAllowed v.type .String)

/-- Rust `Value::cast_to_bool`. -/
def Value.cast_to_bool : Value → Except ConversionError BoolT
  | .Bool b => .ok b
  | .Number n => .ok (if n.as_i64 == 0 then false else true)
  | .String s =>
    match rustParseBool s with
    | some b => .ok b
    | none => .error (.Failed (.String s) .Bool)
  | v => .error (.NotAllowed v.type .Bool)

/-- Rust `Value::cast_to`. -/
def Value.cast_to (v : Value) (t : Type') : Except ConversionError Value :=
  match t with
  | .DateTime => v.cast_to_datetime.map Value.DateTime
  | .Number => v.cast_to_number.map Value.Number
  | .Bool => v.cast_to_bool.map Value.Bool
  | .String => v.cast_to_string.map Value.String
  | .Null => .error (.NotAllowed v.type .Null)

/-- Rust `Value::unify_types`: compare the precedences of the two types;
on equality both values pass through, otherwise the operand whose type
has the larger precedence number is cast to the other operand's type. -/
def Value.unify_types (left right : Value) : Except ConversionError (Value × Value) :=
  match compare left.type.precedence right.type.precedence with
  | .eq => .ok (left, right)
  | .lt => (right.cast_to left.type).map (fun r => (left, r))
  | .gt => (left.cast_to right.type).map (fun l => (l, right))

/-! ### Rust `PartialEq`/`PartialOrd` for `Value` (derived, with the
hand-written `Number` instances) -/

/-- Numeric value of a `Number` (Rust compares `Int` against `Float` by
converting the `i64` to `f64`; here the comparison is exact). -/
def Number.toRat : NumberT → Rat
  | .Int i => (i : Rat)
  | .Float f => f

/-- Three-way comparison helpers written out explicitly. -/
def cmpRat (a b : Rat) : Ordering :=
  if a < b then .lt else if b < a then .gt else .eq

/-- Three-way comparison on `Int`. -/
def cmpInt (a b : Int) : Ordering :=
  if a < b then .lt else if b < a then .gt else .eq

/-- Three-way comparison on `Nat`. -/
def cmpNat (a b : Nat) : Ordering :=
  if a < b then .lt else if b < a then .gt else .eq

/-- Three-way comparison on `Bool` (`false < true`, as in Rust). -/
def cmpBool (a b : Bool) : Ordering :=
  match a, b with
  | false, true => .lt
  | true, false => .gt
  | _, _ => .eq

/-- Three-way comparison on `String` (lexicographic, as in Rust). -/
def cmpString (a b : String) : Ordering :=
  if a < b then .lt else if b < a then .gt else .eq

/-- Rust `PartialEq for Number` (cross `Int`/`Float` comparison is
numeric). -/
def numberEq (a b : Number) : Bool := a.toRat == b.toRat

/-- Discriminant order of the `Value` enum as declared
(`Null, Bool, Number, String, DateTime`), which Rust's derived
`PartialOrd` uses to order values of different variants. -/
def Value.rank : Value → Nat
  | .Null => 0
  | .Bool _ => 1
  | .Number _ => 2
  | .String _ => 3
  | .DateTime _ => 4

/-- Rust derived `PartialEq for Value` (with the custom `Number`
instance); different variants are never equal. -/
def valueEq : Value → Value → Bool
  | .Null, .Null => true
  | .Bool a, .Bool b => a == b
  | .Number a, .Number b => numberEq a b
  | .String a, .String b => a == b
  | .DateTime a, .DateTime b => a == b
  | _, _ => false

/-- Rust derived `PartialOrd for Value`: same variants compare their
payloads, different variants compare by declaration order.  (Rust
returns `None` only for NaN floats, which the rational model does not
have.) -/
def valuePartialCmp : Value → Value → Option Ordering
  | .Null, .Null => some .eq
  | .Bool a, .Bool b => some (cmpBool a b)
  | .Number a, .Number b => some (cmpRat a.toRat b.toRat)
  | .String a, .String b => some (cmpString a b)
  | .DateTime a, .DateTime b => some (cmpInt a b)
  | a, b => some (cmpNat a.rank b.rank)

/-- Rust `PartialOrd::lt`. -/
def valueLt (a b : Value) : Bool := valuePartialCmp a b == some .lt

/-- Rust `PartialOrd::le`. -/
def valueLe (a b : Value) : Bool :=
  match valuePartialCmp a b with
  | some .lt => true
  | some .eq => true
  | _ => false

/-- Rust `PartialOrd::gt`. -/
def valueGt (a b : Value) : Bool := valuePartialCmp a b == some .gt

/-- Rust `PartialOrd::ge`. -/
def valueGe (a b : Value) : Bool :=
  match valuePartialCmp a b with
  | some .gt => true
  | some .eq => true
  | _ => false

/-! ### The binary operations of `evaluator/value/operations.rs` -/

/-- Rust `Value::unsupported_null`: error out when either operand is
`Null`. -/
def Value.unsupported_null (left right : Value) (op : BinaryOp) : Except EvaluationError Unit :=
  match left, right with
  | .Null, _ => .error (.BinaryOperation (.Unsupported left.type right.type op))
  | _, .Null => .error (.BinaryOperation (.Unsupported left.type right.type op))
  | _, _ => .ok ()

/-- Rust `Value::eq`: a `Null` on either side short-circuits to comparing
the other side's type against `Null`; otherwise unify and compare
structurally. -/
def Value.eq (left right : Value) : Except EvaluationError Value :=
  match left, right with
  | .Null, v => .ok (.Bool (v.type == .Null))
  | v, .Null => .ok (.Bool (v.type == .Null))
  | _, _ =>
    match liftConv (Value.unify_types left right) with
    | .ok (l, r) => .ok (.Bool (valueEq l r))
    | .error e => .error e

/-- Rust `Value::lte`. -/
def Value.lte (left right : Value) : Except EvaluationError Value :=
  match Value.unsupported_null left right .Lte with
  | .error e => .error e
  | .ok _ =>
    match liftConv (Value.unify_types left right) with
    | .ok (l, r) => .ok (.Bool (valueLe l r))
    | .error e => .error e

/-- Rust `Value::lt`. -/
def Value.lt (left right : Value) : Except EvaluationError Value :=
  match Value.unsupported_null left right .Lt with
  | .error e => .error e
  | .ok _ =>
    match liftConv (Value.unify_types left right) with
    | .ok (l, r) => .ok (.Bool (valueLt l r))
    | .error e => .error e

/-- Rust `Value::gte`. -/
def Value.gte (left right : Value) : Except EvaluationError Value :=
  match Value.unsupported_null left right .Gte with
  | .error e => .error e
  | .ok _ =>
    match liftConv (Value.unify_types left right) with
    | .ok (l, r) => .ok (.Bool (valueGe l r))
    | .error e => .error e

/-- Rust `Value::gt`. -/
def Value.gt (left right : Value) : Except EvaluationError Value :=
  match Value.unsupported_null left right .Gt with
  | .error e => .error e
  | .ok _ =>
    match liftConv (Value.unify_types left right) with
    | .ok (l, r) => .ok (.Bool (valueGt l r))
    | .error e => .error e

/-- Rust `Value::and`: `Ok(Bool(*left && right.cast_to_bool()?))` for the
first operand that is literally `Bool` (left tried first); since Rust's
`&&` short-circuits, the cast of the other operand runs only when the
matched boolean is `true`.  With no `Bool` operand: `Unsupported`. -/
def Value.and (left right : Value) : Except EvaluationError Value :=
  match left, right with
  | .Bool b, other =>
    if b then liftConv (other.cast_to_bool.map Value.Bool) else .ok (.Bool false)
  | other, .Bool b =>
    if b then liftConv (other.cast_to_bool.map Value.Bool) else .ok (.Bool false)
  | _, _ => .error (.BinaryOperation (.Unsupported left.type right.type .And))

/-- Rust `Value::or`: `Ok(Bool(*left || right.cast_to_bool()?))`, with the
dual short-circuit: the cast of the other operand runs only when the
matched boolean is `false`. -/
def Value.or (left right : Value) : Except EvaluationError Value :=
  match left, right with
  | .Bool b, other =>
    if b then .ok (.Bool true) else liftConv (other.cast_to_bool.map Value.Bool)
  | other, .Bool b =>
    if b then .ok (.Bool true) else liftConv (other.cast_to_bool.map Value.Bool)
  | _, _ => .error (.BinaryOperation (.Unsupported left.type right.type .Or))

/-- Substring containment (Rust `str::contains` with a literal pattern):
some position of the haystack starts with the needle; the empty needle
is always contained. -/
def containsSubstr (s p : List Char) : Bool :=
  if p.isPrefixOf s then true
  else
    match s with
    | [] => false
    | _ :: rest => containsSubstr rest p

/-- Rust `Value::like`: the pattern must literally be a `String`; the left
side is cast to string and tested for substring containment. -/
def Value.like (left pattern : Value) : Except EvaluationError Value :=
  match pattern with
  | .String p =>
    match liftConv left.cast_to_string with
    | .ok s => .ok (.Bool (containsSubstr s.toList p.toList))
    | .error e => .error e
  | _ => .error (.BinaryOperation (.Unsupported left.type pattern.type .Like))

/-- Rust `Value::not`. -/
def Value.not (value : Value) : Except EvaluationError Value :=
  match liftConv value.cast_to_bool with
  | .ok b => .ok (.Bool (!b))
  | .error e => .error e

/-! ### `ResultSet` (`evaluator/result_set.rs`)

The Rust struct keeps `columns: HashMap<String, usize>` mapping a column
name to its index together with `rows: Vec<Vec<Value>>`.  The code only
ever inserts a name with index `columns.len()`, so the map is exactly an
insertion-ordered list of distinct names with the index given by the
list position; the model stores that list directly.  The `columns()`
iterator (which sorts the map entries by index) is then the list itself. -/

structure ResultSet where
  columns : List String
  rows : List (List Value)
deriving DecidableEq

/-- Rust `ResultSet::new`. -/
def ResultSet.new : ResultSet := { columns := [], rows := [] }

/-- Rust `ResultSet::add_column`: a no-op when the name is present;
otherwise the name is appended (index `columns.len()`) and every
existing row is padded with `Null`. -/
def ResultSet.add_column (rs : ResultSet) (name : String) : ResultSet :=
  if name ∈ rs.columns then rs
  else { columns := rs.columns ++ [name], rows := rs.rows.map (fun row => row ++ [Value.Null]) }

/-- Rust `ResultSet::add_columns`. -/
def ResultSet.add_columns (rs : ResultSet) (cols : List String) : ResultSet :=
  cols.foldl ResultSet.add_column rs

/-- Rust `ResultSet::with_columns`. -/
def ResultSet.with_columns (cols : List String) : ResultSet :=
  ResultSet.new.add_columns cols

/-- Loop body of Rust `ResultSet::add_row`: for each `(name, value)`
pair, write the value into the row slot of an existing column, or create
the column (padding all previously stored rows) and push the value at
the end of the row being built. -/
def ResultSet.addRowGo : ResultSet → List Value → List (String × Value) → ResultSet × List Value
  | rs, row, [] => (rs, row)
  | rs, row, (name, v) :: rest =>
    match rs.columns.findIdx? (fun c => c == name) with
    | some id => ResultSet.addRowGo rs (row.set id v) rest
    | none => ResultSet.addRowGo (rs.add_column name) (row ++ [v]) rest

/-- Rust `ResultSet::add_row`: build a `Null`-initialized buffer with one
slot per known column, run the loop, then append the built row. -/
def ResultSet.add_row (rs : ResultSet) (values : List (String × Value)) : ResultSet :=
  let start := List.replicate rs.columns.length Value.Null
  let step := ResultSet.addRowGo rs start values
  { columns := step.1.columns, rows := step.1.rows ++ [step.2] }

/-- Rust `ResultSet::add_rows`. -/
def ResultSet.add_rows (rs : ResultSet) (rows : List (List (String × Value))) : ResultSet :=
  rows.foldl ResultSet.add_row rs

/-- The states reachable through the public `ResultSet` constructors and
mutators. -/
inductive ResultSet.Reachable : ResultSet → Prop where
  | new : ResultSet.Reachable ResultSet.new
  | with_columns (cols : List String) : ResultSet.Reachable (ResultSet.with_columns cols)
  | add_column (rs : ResultSet) (name : String) :
      ResultSet.Reachable rs → ResultSet.Reachable (rs.add_column name)
  | add_columns (rs : ResultSet) (cols : List String) :
      ResultSet.Reachable rs → ResultSet.Reachable (rs.add_columns cols)
  | add_row (rs : ResultSet) (values : List (String × Value)) :
      ResultSet.Reachable rs → ResultSet.Reachable (rs.add_row values)
  | add_rows (rs : ResultSet) (rows : List (List (String × Value))) :
      ResultSet.Reachable rs → ResultSet.Reachable (rs.add_rows rows)

/-- The row-alignment invariant of the claim: every stored row vector has
exactly one entry per column. -/
def ResultSet.RowsAligned (rs : ResultSet) : Prop :=
  ∀ row ∈ rs.rows, row.length = rs.columns.length

/-! ### Projection columns (`FieldsProjection::columns` in
`evaluator/query.rs`) -/

/-- Rust `enum Field` from `ast/mod.rs`. -/
inductive Field where
  | Asterisk
  | Name (name : String)
deriving DecidableEq

/-- Rust `struct FieldsProjection(pub Vec<Field>)`. -/
structure FieldsProjection where
  fields : List Field
deriving DecidableEq

/-- Rust `FieldsProjection::columns::<T>`: fold over the projection
fields, inserting into an insertion-ordered map (modelled as a list, as
for `ResultSet`); `Asterisk` inserts every declared field name not yet
present, `Name` inserts the single name if not present; the result is
read back in insertion order.  `fieldNames` stands for
`T::field_names()`. -/
def FieldsProjection.columns (fp : FieldsProjection) (fieldNames : List String) : List String :=
  fp.fields.foldl
    (fun cols f =>
      match f with
      | .Asterisk => fieldNames.foldl (fun cs fn => if fn ∈ cs then cs else cs ++ [fn]) cols
      | .Name n => if n ∈ cols then cols else cols ++ [n])
    []

/-- Specification-side expansion of a projection: the projection list
with every `Asterisk` replaced by the declared field names, in order. -/
def expandProjection (fieldNames : List String) (fields : List Field) : List String :=
  (fields.map (fun f => match f with | .Asterisk => fieldNames | .Name n => [n])).flatten

/-- Specification-side de-duplication keeping the first occurrence of
each name. -/
def dedupKeepFirst (l : List String) : List String :=
  l.foldl (fun cs n => if n ∈ cs then cs else cs ++ [n]) []

/-! ### The AST of `ast/expression.rs` and `ast/mod.rs`

Rust wraps operations as `Expression::Operation(Box<Operation>)` with
`Operation::Unary(UnaryOperation)` / `Operation::Binary(BinaryOperation)`;
the boxes carry no information, so the model flattens them to the
constructors `Expression.Unary` and `Expression.Binary`.  The
`Identifier(String)` newtype is flattened to its string. -/

/-- Rust `enum Literal`. -/
inductive Literal where
  | Number (n : NumberT)
  | String (s : StringT)
  | Bool (b : BoolT)
  | Null
deriving DecidableEq

/-- Alias for `Literal`, usable where a constructor named `Literal`
shadows it. -/
abbrev LiteralT := Literal

/-- Rust `enum Expression` (with `Operation` flattened, see above). -/
inductive Expression where
  | Identifier (name : StringT)
  | Literal (lit : LiteralT)
  | Unary (op : UnaryOp) (expression : Expression)
  | Binary (left_expression : Expression) (op : BinaryOp) (right_expression : Expression)
deriving DecidableEq

/-- Rust `struct Predicate`. -/
structure Predicate where
  expr : Expression
deriving DecidableEq

/-- Rust `struct Query`. -/
structure Query where
  fields_projection : FieldsProjection
  predicate : Option Predicate
deriving DecidableEq

/-! ### The nom parser of `ast/parser.rs`

A parser consumes a `List Char` and yields `PRes`: `ok rest val`,
a recoverable error `er` (nom `Err::Error`, which `alt` backtracks over)
or an unrecoverable one `fail` (nom `Err::Failure`, produced by `cut`).
The verbose error payloads are dropped (no claim inspects them). -/

inductive PRes (α : Type) where
  | ok (rest : List Char) (val : α)
  | er
  | fail
deriving DecidableEq

/-- A parser over characters. -/
abbrev P (α : Type) : Type := List Char → PRes α

/-- nom `map`. -/
def pmap {α β : Type} (f : α → β) (p : P α) : P β := fun s =>
  match p s with
  | .ok r v => .ok r (f v)
  | .er => .er
  | .fail => .fail

/-- nom `alt` over two branches: the second runs only on a recoverable
error of the first. -/
def alt2 {α : Type} (p q : P α) : P α := fun s =>
  match p s with
  | .er => q s
  | r => r

/-- nom `alt` over three branches. -/
def alt3 {α : Type} (p q r : P α) : P α := alt2 p (alt2 q r)

/-- nom `alt` over four branches. -/
def alt4 {α : Type} (p q r t : P α) : P α := alt2 p (alt3 q r t)

/-- nom `value`. -/
def pvalue {α β : Type} (a : α) (p : P β) : P α := pmap (fun _ => a) p

/-- nom `opt`: turns a recoverable error into `none`. -/
def popt {α : Type} (p : P α) : P (Option α) := fun s =>
  match p s with
  | .ok r v => .ok r (some v)
  | .er => .ok s none
  | .fail => .fail

/-- nom `cut`: makes an error unrecoverable. -/
def cut {α : Type} (p : P α) : P α := fun s =>
  match p s with
  | .er => .fail
  | r => r

/-- nom `not`: succeeds consuming nothing iff the inner parser errors. -/
def pnot {α : Type} (p : P α) : P Unit := fun s =>
  match p s with
  | .ok _ _ => .er
  | .er => .ok s ()
  | .fail => .fail

/-- nom `preceded`. -/
def preceded {α β : Type} (p : P α) (q : P β) : P β := fun s =>
  match p s with
  | .ok r _ => q r
  | .er => .er
  | .fail => .fail

/-- nom `terminated`. -/
def terminated {α β : Type} (p : P α) (q : P β) : P α := fun s =>
  match p s with
  | .ok r v =>
    match q r with
    | .ok r2 _ => .ok r2 v
    | .er => .er
    | .fail => .fail
  | .er => .er
  | .fail => .fail

/-- nom `delimited`. -/
def delimited {α β γ : Type} (p : P α) (q : P β) (r : P γ) : P β :=
  preceded p (terminated q r)

/-- nom `separated_pair`. -/
def separated_pair {α β γ : Type} (p : P α) (sep : P β) (q : P γ) : P (α × γ) := fun s =>
  match p s with
  | .ok r1 a =>
    match sep r1 with
    | .ok r2 _ =>
      match q r2 with
      | .ok r3 c => .ok r3 (a, c)
      | .er => .er
      | .fail => .fail
    | .er => .er
    | .fail => .fail
  | .er => .er
  | .fail => .fail

/-- nom tuple of two parsers. -/
def ppair {α β : Type} (p : P α) (q : P β) : P (α × β) := fun s =>
  match p s with
  | .ok r1 a =>
    match q r1 with
    | .ok r2 b => .ok r2 (a, b)
    | .er => .er
    | .fail => .fail
  | .er => .er
  | .fail => .fail

/-- nom tuple of three parsers. -/
def tuple3 {α β γ : Type} (p : P α) (q : P β) (r : P γ) : P (α × β × γ) :=
  ppair p (ppair q r)

/-- nom `char`. -/
def char (c : Char) : P Char := fun s =>
  match s with
  | x :: r => if x = c then .ok r c else .er
  | [] => .er

/-- nom `one_of`. -/
def one_of (cs : List Char) : P Char := fun s =>
  match s with
  | x :: r => if x ∈ cs then .ok r x else .er
  | [] => .er

/-- nom `none_of`. -/
def none_of (cs : List Char) : P Char := fun s =>
  match s with
  | x :: r => if x ∈ cs then .er else .ok r x
  | [] => .er

/-- nom `tag` (case-sensitive). -/
def tag (t : List Char) : P (List Char) := fun s =>
  if t.isPrefixOf s then .ok (s.drop t.length) t else .er

/-- nom `tag_no_case` (ASCII case-insensitive). -/
def tag_no_case (t : List Char) : P (List Char) := fun s =>
  if t.length ≤ s.length && (s.take t.length).map Char.toLower == t.map Char.toLower then
    .ok (s.drop t.length) (s.take t.length)
  else .er

/-- The whitespace recognized by nom `multispace0`. -/
def isMultispace (c : Char) : Bool :=
  c == ' ' || c == Char.ofNat 9 || c == Char.ofNat 10 || c == Char.ofNat 13

/-- nom `multispace0`. -/
def multispace0 : P (List Char) := fun s =>
  .ok (s.dropWhile isMultispace) (s.takeWhile isMultispace)

/-- The `ws` wrapper of `parser.rs`: skip surrounding whitespace. -/
def ws {α : Type} (p : P α) : P α := delimited multispace0 p multispace0

/-- The `identifier` parser of `parser.rs`:
`recognize(preceded(alt((alpha1, tag("_"))), many0_count(alt((alphanumeric1, tag("_"))))))`,
i.e. the maximal run of ASCII alphanumerics and underscores that starts
with a letter or an underscore, returned as the consumed span. -/
def identifier : P String := fun s =>
  match s with
  | c :: rest =>
    if c.isAlpha || c == '_' then
      .ok (rest.dropWhile (fun x => x.isAlphanum || x == '_'))
        (String.mk (c :: rest.takeWhile (fun x => x.isAlphanum || x == '_')))
    else .er
  | [] => .er

/-- nom `character::complete::i64`: optional sign, one or more digits,
value checked against the `i64` range. -/
def nomI64 : P Int := fun s =>
  let (neg, s1) :=
    match s with
    | c :: r => if c = '-' then (true, r) else if c = '+' then (false, r) else (false, s)
    | [] => (false, s)
  let ds := s1.takeWhile Char.isDigit
  if ds = [] then .er
  else
    let v : Int := if neg then -((digitsVal ds : Nat) : Int) else ((digitsVal ds : Nat) : Int)
    if i64Min ≤ v && v ≤ i64Max then .ok (s1.drop ds.length) v else .er

/-- nom `number::complete::double`, restricted to its finite grammar
`sign? (digit+ ('.' digit*)? | '.' digit+) ((e|E) sign? digit+)?`; the
`inf`/`infinity`/`nan` exceptions nom also recognizes are not modelled
(they have no rational value and no claim reaches them). -/
def nomDouble : P Rat := fun s =>
  let (neg, s1) :=
    match s with
    | c :: r => if c = '-' then (true, r) else if c = '+' then (false, r) else (false, s)
    | [] => (false, s)
  let intDs := s1.takeWhile Char.isDigit
  let s2 := s1.drop intDs.length
  let (fracDs, s3) :=
    match s2 with
    | c :: r => if c = '.' then (r.takeWhile Char.isDigit, r.drop (r.takeWhile Char.isDigit).length) else ([], s2)
    | [] => ([], s2)
  let dotSeen : Bool := s2.head? == some '.'
  if intDs = [] && fracDs = [] then .er
  else
    let expRes : PRes Int :=
      match s3 with
      | c :: r =>
        if c = 'e' || c = 'E' then
          let (eneg, r1) :=
            match r with
            | c2 :: r2 => if c2 = '-' then (true, r2) else if c2 = '+' then (false, r2) else (false, r)
            | [] => (false, r)
          let eds := r1.takeWhile Char.isDigit
          if eds = [] then .er
          else .ok (r1.drop eds.length) (if eneg then -((digitsVal eds : Nat) : Int) else ((digitsVal eds : Nat) : Int))
        else .ok s3 0
      | [] => .ok s3 0
    match expRes with
    | .ok rest e =>
      let mant : Rat := ((digitsVal intDs : Nat) : Rat)
        + (if dotSeen then ((digitsVal fracDs : Nat) : Rat) / pow10 (fracDs.length : Int) else 0)
      let v := mant * pow10 e
      .ok rest (if neg then -v else v)
    | _ => .er

/-- The `number` parser of `parser.rs`: an `i64` not followed by `.`, `e`
or `E`, else a float. -/
def number : P Number :=
  alt2 (pmap Number.Int (terminated nomI64 (pnot (one_of ['.', 'e', 'E']))))
    (pmap Number.Float nomDouble)

/-- The `boolean` parser of `parser.rs` (exact lowercase tags). -/
def boolean : P Bool :=
  alt2 (pvalue false (tag (("false").toList))) (pvalue true (tag (("true").toList)))

/-- The `null` parser of `parser.rs` (case-insensitive). -/
def null : P Unit := pvalue () (tag_no_case (("null").toList))

/-- nom `escaped(normal, control, escapable)` for one-character `normal`:
consume the maximal run of characters matched by `normal`, where the
control character must be followed by a character matched by
`escapable`; a dangling or invalid escape is an error; the consumed span
is returned verbatim. -/
def escapedChars (normal escapable : Char → Bool) (control : Char) : List Char → PRes (List Char)
  | [] => .ok [] []
  | [c] =>
    if normal c then .ok [] [c]
    else if c = control then .er
    else .ok [c] []
  | c :: d :: rest =>
    if normal c then
      match escapedChars normal escapable control (d :: rest) with
      | .ok r v => .ok r (c :: v)
      | .er => .er
      | .fail => .fail
    else if c = control then
      if escapable d then
        match escapedChars normal escapable control rest with
        | .ok r v => .ok r (c :: d :: v)
        | .er => .er
        | .fail => .fail
      else .er
    else .ok (c :: d :: rest) []

/-- The `none_of("\\\"")` character class of the double-quote grammar. -/
def dqNormal (c : Char) : Bool := !(c == bsChar || c == dqChar)

/-- The `one_of("\"\\/bfnrt")` escapable class of the double-quote
grammar. -/
def dqEscapable (c : Char) : Bool := c ∈ [dqChar, bsChar, '/', 'b', 'f', 'n', 'r', 't']

/-- The `none_of("\\'")` character class of the single-quote grammar. -/
def sqNormal (c : Char) : Bool := !(c == bsChar || c == sqChar)

/-- The `one_of("'\\/bfnrt")` escapable class of the single-quote
grammar. -/
def sqEscapable (c : Char) : Bool := c ∈ [sqChar, bsChar, '/', 'b', 'f', 'n', 'r', 't']

/-- The `escaped_double_quote_string` parser of `parser.rs`: the escaped
span (or empty), converted to a string with the escapes kept verbatim. -/
def escaped_double_quote_string : P String :=
  pmap (fun o => String.mk (o.getD []))
    (popt (fun s => escapedChars dqNormal dqEscapable bsChar s))

/-- The `escaped_single_quote_string` parser of `parser.rs`. -/
def escaped_single_quote_string : P String :=
  pmap (fun o => String.mk (o.getD []))
    (popt (fun s => escapedChars sqNormal sqEscapable bsChar s))

/-- The `string` parser of `parser.rs`: a single- or double-quoted
literal; a missing closing quote is an unrecoverable failure (`cut`). -/
def string : P String :=
  alt2 (delimited (char sqChar) escaped_single_quote_string (cut (char sqChar)))
    (delimited (char dqChar) escaped_double_quote_string (cut (char dqChar)))

/-- The `literal` parser of `parser.rs`: `null`, then number, then
boolean, then string. -/
def literal : P Literal :=
  alt4 (pmap (fun _ => Literal.Null) null) (pmap Literal.Number number)
    (pmap Literal.Bool boolean) (pmap Literal.String string)

/-- The `relation_operator` parser of `parser.rs`.  `LIKE` uses the
case-sensitive `tag`, unlike the other keywords of the grammar. -/
def relation_operator : P BinaryOp :=
  alt2 (pvalue BinaryOp.Like (tag (("LIKE").toList)))
    (alt2 (pvalue BinaryOp.Gte (tag ((">=").toList)))
      (alt2 (pvalue BinaryOp.Gt (tag ((">").toList)))
        (alt3 (pvalue BinaryOp.Lte (tag (("<=").toList)))
          (pvalue BinaryOp.Lt (tag (("<").toList)))
          (pvalue BinaryOp.Eq (tag (("=").toList))))))

/-- The mutually recursive expression grammar of `parser.rs`
(`expression`, `expression1` … `expression4`), indexed by a tier
(4 = `expression` down to 0 = `expression4`) and a fuel bounding the
recursion depth (the Rust recursion terminates because every cycle
consumes input; every recursive call here spends one unit of fuel, so
any fuel larger than the recursion depth yields the Rust behaviour). -/
def expressionAux : Nat → Nat → P Expression
  | 0, _ => fun _ => .er
  | Nat.succ f, tier =>
    match tier with
    | 4 => alt2
        (pmap (fun pr => Expression.Binary pr.1 .Or pr.2)
          (separated_pair (expressionAux f 3) (ws (tag_no_case (("OR").toList))) (expressionAux f 4)))
        (ws (expressionAux f 3))
    | 3 => alt2
        (pmap (fun pr => Expression.Binary pr.1 .And pr.2)
          (separated_pair (expressionAux f 2) (ws (tag_no_case (("AND").toList))) (expressionAux f 3)))
        (ws (expressionAux f 2))
    | 2 => alt2
        (pmap (fun e => Expression.Unary .Not e)
          (preceded (ws (tag_no_case (("NOT").toList))) (expressionAux f 2)))
        (ws (expressionAux f 1))
    | 1 => alt2
        (pmap (fun t => Expression.Binary t.1 t.2.1 t.2.2)
          (tuple3 (expressionAux f 0) (ws relation_operator) (expressionAux f 1)))
        (ws (expressionAux f 0))
    | 0 => alt3
        (delimited (tag (("(").toList)) (ws (expressionAux f 4)) (cut (tag ((")").toList))))
        (pmap Expression.Literal literal)
        (pmap Expression.Identifier identifier)
    | _ => fun _ => .er

/-- The `expression` parser (operators of precedence 4, `OR`). -/
def expression (fuel : Nat) : P Expression := expressionAux fuel 4

/-- The `expression1` parser (`AND`). -/
def expression1 (fuel : Nat) : P Expression := expressionAux fuel 3

/-- The `expression2` parser (`NOT`). -/
def expression2 (fuel : Nat) : P Expression := expressionAux fuel 2

/-- The `expression3` parser (relational operators). -/
def expression3 (fuel : Nat) : P Expression := expressionAux fuel 1

/-- The `expression4` parser (parentheses, literals, identifiers). -/
def expression4 (fuel : Nat) : P Expression := expressionAux fuel 0

/-- Fuel that certainly covers the recursion depth of parsing `s` (at
most five tier descents per consumed character, see `expressionAux`). -/
def exprFuel (s : String) : Nat := 10 * (s.length + 1)

/-- Loop of nom `separated_list1` after the first element: repeatedly
parse a separator and an element, stopping (without consuming the
separator) when either errs; nom rejects an iteration that consumed
nothing, so each iteration consumes at least one character and the fuel
`input length + 1` is never exhausted. -/
def sepList1Go {α β : Type} (sep : P α) (p : P β) : Nat → List Char → List β → PRes (List β)
  | 0, s, acc => .ok s acc.reverse
  | Nat.succ f, s, acc =>
    match sep s with
    | .er => .ok s acc.reverse
    | .fail => .fail
    | .ok s1 _ =>
      match p s1 with
      | .er => .ok s acc.reverse
      | .fail => .fail
      | .ok s2 v =>
        if s2.length < s.length then sepList1Go sep p f s2 (v :: acc) else .er

/-- nom `separated_list1`. -/
def separated_list1 {α β : Type} (sep : P α) (p : P β) : P (List β) := fun s =>
  match p s with
  | .ok r v => sepList1Go sep p (r.length + 1) r [v]
  | .er => .er
  | .fail => .fail

/-- The `field` parser of `parser.rs`. -/
def field : P Field :=
  alt2 (pmap Field.Name identifier) (pvalue Field.Asterisk (char '*'))

/-- The `fields_projection` parser of `parser.rs`. -/
def fields_projection : P FieldsProjection :=
  pmap FieldsProjection.mk (separated_list1 (ws (char ',')) field)

/-- The `predicate` parser of `parser.rs`. -/
def predicate (fuel : Nat) : P Predicate :=
  pmap Predicate.mk (expression fuel)

/-- The `query` parser of `parser.rs`. -/
def query (fuel : Nat) : P Query :=
  pmap (fun pr => { fields_projection := pr.1, predicate := pr.2 })
    (ws (ppair
      (preceded (ws (tag_no_case (("SELECT").toList))) fields_projection)
      (popt (preceded (ws (tag_no_case (("WHERE").toList))) (predicate fuel)))))

/-- Rust `Query::from_str` (`ast/mod.rs`): run the query parser with
`all_consuming`; any parse error or unconsumed input is a `ParseError`,
modelled as `none`. -/
def Query.from_str (s : String) : Option Query :=
  match query (exprFuel s) s.toList with
  | .ok [] q => some q
  | .ok _ _ => none
  | .er => none
  | .fail => none

/-! ### Concrete inputs referenced by the claims -/

/-- The query `SELECT * WHERE string LIKE 'x'` (built from characters
because of the quotes). -/
def likeQueryUpper : String :=
  String.mk ((("SELECT * WHERE string LIKE ").toList) ++ [sqChar, 'x', sqChar])

/-- The query `SELECT * WHERE string like 'x'` (lowercase `like`). -/
def likeQueryLower : String :=
  String.mk ((("SELECT * WHERE string like ").toList) ++ [sqChar, 'x', sqChar])

/-- The query `select * where string LIKE 'x'` (the other keywords in
lowercase). -/
def likeQueryLowerKeywords : String :=
  String.mk ((("select * where string LIKE ").toList) ++ [sqChar, 'x', sqChar])

/-- The AST of `SELECT * WHERE string LIKE 'x'`. -/
def likeQueryAst : Query :=
  { fields_projection := ⟨[.Asterisk]⟩
    predicate := some ⟨.Binary (.Identifier "string") .Like (.Literal (.String "x"))⟩ }

/-- The precedence test expression of claim C5. -/
def precedenceExprText : String := "value AND (NOT value > 1) OR value"

/-- The expected AST: `Or(And(value, Not(Gt(value, 1))), value)`. -/
def precedenceExprAst : Expression :=
  .Binary
    (.Binary (.Identifier "value") .And
      (.Unary .Not (.Binary (.Identifier "value") .Gt (.Literal (.Number (.Int 1))))))
    .Or
    (.Identifier "value")

/-- The ten-character string-literal input `"str\"ing"` of claim C6. -/
def escapedStringInput : List Char :=
  [dqChar] ++ ("str").toList ++ [bsChar, dqChar] ++ ("ing").toList ++ [dqChar]

/-- The expected eight-character parse result `str\"ing` (escape kept). -/
def escapedStringOutput : String :=
  String.mk (("str").toList ++ [bsChar, dqChar] ++ ("ing").toList)

/-- The AST that `SELECT * WHERE nullLIKEa = 1` actually parses to:
`Null LIKE (a = 1)`. -/
def nullPrefixQueryAst : Query :=
  { fields_projection := ⟨[.Asterisk]⟩
    predicate := some ⟨.Binary (.Literal .Null) .Like
      (.Binary (.Identifier "a") .Eq (.Literal (.Number (.Int 1))))⟩ }

/-- The declared field names of the record type of claim C8. -/
def c8FieldNames : List String := ["string", "number", "date_time"]

/-! ## Theorems -/

/-- C3, counterexample: the claim says a lowercase `like` parses to the
same AST as uppercase `LIKE`; in fact `SELECT * WHERE string like 'x'`
fails to parse at all while the uppercase variant succeeds. -/
theorem c3_counterexample :
    Query.from_str likeQueryLower = none ∧
    Query.from_str likeQueryUpper = some likeQueryAst := by
  exact ⟨by decide, by decide⟩

/-- C3, amended: the keywords `SELECT`/`WHERE` (and `AND`, `OR`, `NOT`,
`NULL`) are case-insensitive, but `LIKE` alone is matched with the
case-sensitive `tag`: `relation_operator` accepts `LIKE` and rejects
`like`, so the lowercase query is a parse error while the uppercase one
and the one with the other keywords lowercased both parse to the same
AST. -/
theorem c3_like_case_sensitive :
    relation_operator (("LIKExyz").toList) = .ok (("xyz").toList) .Like ∧
    relation_operator (("like").toList) = .er ∧
    Query.from_str likeQueryUpper = some likeQueryAst ∧
    Query.from_str likeQueryLowerKeywords = some likeQueryAst ∧
    Query.from_str likeQueryLower = none := by
  exact ⟨by decide, by decide, by decide, by decide, by decide⟩

/-- C5: the expression text `value AND (NOT value > 1) OR value` parses
with all input consumed to `Or(And(value, Not(Gt(value, 1))), value)`. -/
theorem c5_operator_precedence :
    expression (exprFuel precedenceExprText) precedenceExprText.toList
      = .ok [] precedenceExprAst := by
  decide

/-- C9, counterexample: the claim says every query whose WHERE expression
contains an identifier starting with `null` plus further identifier
characters fails to parse; but `SELECT * WHERE nullLIKEa = 1` parses
successfully (as `Null LIKE (a = 1)`). -/
theorem c9_counterexample :
    Query.from_str ("SELECT * WHERE nullLIKEa = 1") = some nullPrefixQueryAst := by
  decide

/-- C9, amended: in a WHERE expression the `NULL` literal is tried before
identifiers, so an identifier beginning with `null` is truncated to the
`Null` literal (shown on `literal`), which generally leaves trailing
input that `all_consuming` rejects — `SELECT * WHERE nullable = 1` is a
parse error while `SELECT nullable` (identifiers tried first in the
field list) parses — unless the leftover characters happen to complete a
parse, as for `nullLIKEa`. -/
theorem c9_null_prefix_identifier :
    literal (("nullable = 1").toList) = .ok (("able = 1").toList) .Null ∧
    Query.from_str ("SELECT * WHERE nullable = 1") = none ∧
    Query.from_str ("SELECT nullable")
      = some { fields_projection := ⟨[.Name ("nullable")]⟩, predicate := none } ∧
    field (("nullable").toList) = .ok [] (.Name ("nullable")) := by
  exact ⟨by decide, by decide, by decide, by decide⟩

/-- Helper: whatever span `escapedChars` accepts is returned verbatim —
the output is exactly the consumed prefix of the input, so escape
sequences are never decoded. -/
theorem escapedChars_span (normal escapable : Char → Bool) (control : Char) :
    ∀ s r v, escapedChars normal escapable control s = .ok r v → s = v ++ r := by
  suffices H : ∀ n s, s.length ≤ n → ∀ r v,
      escapedChars normal escapable control s = .ok r v → s = v ++ r by
    exact fun s => H s.length s le_rfl
  intro n
  induction n with
  | zero =>
    intro s hs r v h
    have hsnil : s = [] := List.eq_nil_of_length_eq_zero (Nat.le_zero.mp hs)
    subst hsnil
    simp only [escapedChars] at h
    cases h
    rfl
  | succ n ih =>
    intro s hs r v h
    cases s with
    | nil =>
      simp only [escapedChars] at h
      cases h
      rfl
    | cons c s' =>
      cases s' with
      | nil =>
        by_cases hn : normal c = true
        · simp only [escapedChars, hn, if_true] at h
          cases h
          rfl
        · by_cases hc : c = control
          · subst hc
            simp [escapedChars, hn] at h
          · simp [escapedChars, hn, hc] at h
            obtain ⟨rfl, rfl⟩ := h
            rfl
      | cons d rest =>
        have hlen1 : (d :: rest).length ≤ n := by
          simpa using Nat.le_of_succ_le_succ hs
        have hlen2 : rest.length ≤ n := by
          have hstep : rest.length ≤ (d :: rest).length := by simp
          exact le_trans hstep hlen1
        by_cases hn : normal c = true
        · cases he : escapedChars normal escapable control (d :: rest) with
          | ok r2 v2 =>
            simp [escapedChars, hn, he] at h
            obtain ⟨rfl, rfl⟩ := h
            have hspan := ih (d :: rest) hlen1 _ _ he
            simp [hspan]
          | er => simp [escapedChars, hn, he] at h
          | fail => simp [escapedChars, hn, he] at h
        · by_cases hc : c = control
          · subst hc
            by_cases hes : escapable d = true
            · cases he : escapedChars normal escapable c rest with
              | ok r2 v2 =>
                simp [escapedChars, hn, hes, he] at h
                obtain ⟨rfl, rfl⟩ := h
                have hspan := ih rest hlen2 _ _ he
                simp [hspan]
              | er => simp [escapedChars, hn, hes, he] at h
              | fail => simp [escapedChars, hn, hes, he] at h
            · simp [escapedChars, hn, hes] at h
          · simp [escapedChars, hn, hc] at h
            obtain ⟨rfl, rfl⟩ := h
            rfl

/-- C6: the escape handling of the string grammar keeps each backslash
escape as the literal two-character sequence (the accepted span is the
input prefix, unmodified), and concretely the ten-character double-quoted
input `"str\"ing"` parses with all input consumed to the eight-character
string `str\"ing`, backslash retained. -/
theorem c6_escapes_preserved :
    (∀ s r v, escapedChars dqNormal dqEscapable bsChar s = .ok r v → s = v ++ r) ∧
    string escapedStringInput = .ok [] escapedStringOutput ∧
    escapedStringInput.length = 10 ∧
    escapedStringOutput.length = 8 ∧
    escapedStringOutput.toList.contains bsChar = true := by
  exact ⟨escapedChars_span dqNormal dqEscapable bsChar, by decide, by decide, by decide, by decide⟩

/-- C6, witness: the span property applied to the concrete escaped body
`str\"ing` (consumed up to the closing quote). -/
theorem c6_escapes_preserved_witness :
    escapedChars dqNormal dqEscapable bsChar (escapedStringOutput.toList ++ [dqChar])
      = .ok [dqChar] escapedStringOutput.toList ∧
    escapedStringOutput.toList ++ [dqChar] = escapedStringOutput.toList ++ [dqChar] := by
  have h : escapedChars dqNormal dqEscapable bsChar (escapedStringOutput.toList ++ [dqChar])
      = .ok [dqChar] escapedStringOutput.toList := by decide
  exact ⟨h, c6_escapes_preserved.1 _ _ _ h⟩

/-- C1, counterexample: the claim says the operand whose type has the
lower precedence number is cast into the other's type, which for
`(Number 5, String "abc")` would cast the number to a string and
succeed; the code instead casts the string side to `Number`, which
fails. -/
theorem c1_counterexample :
    Value.unify_types (.Number (.Int 5)) (.String ("abc"))
      = .error (.Failed (.String ("abc")) .Number) ∧
    (Value.Number (.Int 5)).cast_to .String = .ok (.String ("5")) ∧
    (Value.Number (.Int 5)).type.precedence < (Value.String ("abc")).type.precedence := by
  exact ⟨by decide, by decide, by decide⟩

/-- C1, amended: `unify_types` compares precedences; on equality both
values pass through unchanged; otherwise the operand whose type has the
*higher* precedence number (the weaker type) is cast into the other
operand's type.  When exactly one operand is `Null` the result is a
`NotAllowed` error (`Null` is not convertible to any type, and nothing
is convertible to `Null`).  Concretely,
`unify_types(String("2020-12-12 20:20"), DateTime(d))` succeeds with
both results of type `DateTime`. -/
theorem c1_unify_types_direction :
    (∀ l r : Value, l.type.precedence = r.type.precedence →
      Value.unify_types l r = .ok (l, r)) ∧
    (∀ l r : Value, l.type.precedence < r.type.precedence →
      Value.unify_types l r = (r.cast_to l.type).map (fun x => (l, x))) ∧
    (∀ l r : Value, r.type.precedence < l.type.precedence →
      Value.unify_types l r = (l.cast_to r.type).map (fun x => (x, r))) ∧
    (∀ v : Value, v.type ≠ .Null →
      Value.unify_types v .Null = .error (.NotAllowed .Null v.type) ∧
      Value.unify_types .Null v = .error (.NotAllowed .Null v.type)) ∧
    (∀ d : Int, Value.unify_types (.String ("2020-12-12 20:20")) (.DateTime d)
      = .ok (.DateTime 1607804400, .DateTime d)) := by
  refine ⟨?_, ?_, ?_, ?_, ?_⟩
  · intro l r h
    cases l <;> cases r <;> first | rfl | simp [Value.type, Type'.precedence] at h
  · intro l r h
    cases l <;> cases r <;> first | rfl | simp [Value.type, Type'.precedence] at h
  · intro l r h
    cases l <;> cases r <;> first | rfl | simp [Value.type, Type'.precedence] at h
  · intro v hv
    cases v <;> first | exact ⟨rfl, rfl⟩ | exact absurd rfl hv
  · intro d
    rfl

/-- C1, witness: the four quantified conjuncts applied at concrete
values. -/
theorem c1_unify_types_direction_witness :
    Value.unify_types (.Bool true) (.Bool false) = .ok (.Bool true, .Bool false) ∧
    Value.unify_types (.DateTime 0) (.Number (.Int 5))
      = ((Value.Number (.Int 5)).cast_to .DateTime).map (fun x => (.DateTime 0, x)) ∧
    Value.unify_types (.String ("7")) (.Number (.Int 5))
      = ((Value.String ("7")).cast_to .Number).map (fun x => (x, .Number (.Int 5))) ∧
    Value.unify_types (.Bool true) .Null = .error (.NotAllowed .Null .Bool) ∧
    Value.unify_types (.String ("2020-12-12 20:20")) (.DateTime 0)
      = .ok (.DateTime 1607804400, .DateTime 0) :=
  ⟨c1_unify_types_direction.1 _ _ (by decide),
   c1_unify_types_direction.2.1 _ _ (by decide),
   c1_unify_types_direction.2.2.1 _ _ (by decide),
   (c1_unify_types_direction.2.2.2.1 (.Bool true) (by decide)).1,
   c1_unify_types_direction.2.2.2.2 0⟩

/-- Helper: lifting a conversion result never produces a
`BinaryOperation` error. -/
theorem liftConv_ne_binaryOperation {α : Type} (x : Except ConversionError α)
    (e : BinaryOperationError) : liftConv x ≠ .error (.BinaryOperation e) := by
  cases x <;> simp [liftConv]

/-- Helper: `and` with a left `Bool(false)` short-circuits. -/
theorem and_false_left (x : Value) : Value.and (.Bool false) x = .ok (.Bool false) := by
  cases x <;> rfl

/-- Helper: `and` with a left `Bool(true)` casts the other operand. -/
theorem and_true_left (x : Value) :
    Value.and (.Bool true) x = liftConv (x.cast_to_bool.map Value.Bool) := by
  cases x <;> rfl

/-- Helper: `or` with a left `Bool(false)` casts the other operand. -/
theorem or_false_left (x : Value) :
    Value.or (.Bool false) x = liftConv (x.cast_to_bool.map Value.Bool) := by
  cases x <;> rfl

/-- Helper: `or` with a left `Bool(true)` short-circuits. -/
theorem or_true_left (x : Value) : Value.or (.Bool true) x = .ok (.Bool true) := by
  cases x <;> rfl

/-- Helper: `and` with a right `Bool(false)` and a non-Bool left
short-circuits. -/
theorem and_false_right (x : Value) (hx : x.type ≠ .Bool) :
    Value.and x (.Bool false) = .ok (.Bool false) := by
  cases x <;> first | exact absurd rfl hx | rfl

/-- Helper: `and` with a right `Bool(true)` and a non-Bool left casts the
left operand. -/
theorem and_true_right (x : Value) (hx : x.type ≠ .Bool) :
    Value.and x (.Bool true) = liftConv (x.cast_to_bool.map Value.Bool) := by
  cases x <;> first | exact absurd rfl hx | rfl

/-- Helper: `or` with a right `Bool(false)` and a non-Bool left casts the
left operand. -/
theorem or_false_right (x : Value) (hx : x.type ≠ .Bool) :
    Value.or x (.Bool false) = liftConv (x.cast_to_bool.map Value.Bool) := by
  cases x <;> first | exact absurd rfl hx | rfl

/-- Helper: `or` with a right `Bool(true)` and a non-Bool left
short-circuits. -/
theorem or_true_right (x : Value) (hx : x.type ≠ .Bool) :
    Value.or x (.Bool true) = .ok (.Bool true) := by
  cases x <;> first | exact absurd rfl hx | rfl

/-- C2, counterexample: the claim says the cast of the non-Bool side is
performed even when the Bool side already determines the result, making
`and(Bool(false), String("garbage"))` an error; Rust's `&&`
short-circuits, so the code returns `Ok(Bool(false))` even though the
cast of `"garbage"` would fail. -/
theorem c2_counterexample :
    Value.and (.Bool false) (.String ("garbage")) = .ok (.Bool false) ∧
    (Value.String ("garbage")).cast_to_bool
      = .error (.Failed (.String ("garbage")) .Bool) := by
  exact ⟨by decide, by decide⟩

/-- C2, amended: `and`/`or` return an `Unsupported` binary-operation
error exactly when neither operand is `Bool`; otherwise the other
operand is `cast_to_bool`'d and combined with Rust's *short-circuiting*
`&&`/`||`: the cast (and hence its failure) happens only when the
matched boolean does not already determine the result, so
`and(Bool(false), String("garbage")) = Ok(Bool(false))` while
`and(Bool(true), String("garbage"))` is a conversion error. -/
theorem c2_and_or_shortcircuit :
    (∀ l r : Value, l.type ≠ .Bool → r.type ≠ .Bool →
      Value.and l r = .error (.BinaryOperation (.Unsupported l.type r.type .And)) ∧
      Value.or l r = .error (.BinaryOperation (.Unsupported l.type r.type .Or))) ∧
    (∀ (b : Bool) (x : Value) (e : BinaryOperationError),
      Value.and (.Bool b) x ≠ .error (.BinaryOperation e) ∧
      Value.or (.Bool b) x ≠ .error (.BinaryOperation e)) ∧
    (∀ (b : Bool) (x : Value) (e : BinaryOperationError), x.type ≠ .Bool →
      Value.and x (.Bool b) ≠ .error (.BinaryOperation e) ∧
      Value.or x (.Bool b) ≠ .error (.BinaryOperation e)) ∧
    (∀ r : Value,
      Value.and (.Bool true) r = liftConv (r.cast_to_bool.map Value.Bool) ∧
      Value.and (.Bool false) r = .ok (.Bool false) ∧
      Value.or (.Bool false) r = liftConv (r.cast_to_bool.map Value.Bool) ∧
      Value.or (.Bool true) r = .ok (.Bool true)) ∧
    (∀ l : Value, l.type ≠ .Bool →
      Value.and l (.Bool true) = liftConv (l.cast_to_bool.map Value.Bool) ∧
      Value.and l (.Bool false) = .ok (.Bool false) ∧
      Value.or l (.Bool false) = liftConv (l.cast_to_bool.map Value.Bool) ∧
      Value.or l (.Bool true) = .ok (.Bool true)) ∧
    (Value.and (.Bool false) (.String ("garbage")) = .ok (.Bool false) ∧
      Value.and (.Bool true) (.String ("garbage"))
        = .error (.Conversion (.Failed (.String ("garbage")) .Bool)) ∧
      Value.or (.Bool true) (.String ("garbage")) = .ok (.Bool true)) := by
  refine ⟨?_, ?_, ?_, ?_, ?_, by decide, by decide, by decide⟩
  · intro l r h1 h2
    cases l <;> cases r <;>
      first
      | exact ⟨rfl, rfl⟩
      | exact absurd rfl h1
      | exact absurd rfl h2
  · intro b x e
    cases b
    · refine ⟨?_, ?_⟩
      · intro h
        rw [and_false_left] at h
        exact Except.noConfusion h
      · intro h
        rw [or_false_left] at h
        exact liftConv_ne_binaryOperation _ e h
    · refine ⟨?_, ?_⟩
      · intro h
        rw [and_true_left] at h
        exact liftConv_ne_binaryOperation _ e h
      · intro h
        rw [or_true_left] at h
        exact Except.noConfusion h
  · intro b x e hx
    cases b
    · refine ⟨?_, ?_⟩
      · intro h
        rw [and_false_right x hx] at h
        exact Except.noConfusion h
      · intro h
        rw [or_false_right x hx] at h
        exact liftConv_ne_binaryOperation _ e h
    · refine ⟨?_, ?_⟩
      · intro h
        rw [and_true_right x hx] at h
        exact liftConv_ne_binaryOperation _ e h
      · intro h
        rw [or_true_right x hx] at h
        exact Except.noConfusion h
  · intro r
    exact ⟨and_true_left r, and_false_left r, or_false_left r, or_true_left r⟩
  · intro l hl
    exact ⟨and_true_right l hl, and_false_right l hl, or_false_right l hl, or_true_right l hl⟩

/-- C2, witness: the quantified conjuncts applied at concrete values. -/
theorem c2_and_or_shortcircuit_witness :
    Value.and (.Number (.Int 1)) (.String ("x"))
      = .error (.BinaryOperation (.Unsupported .Number .String .And)) ∧
    Value.and (.Bool true) (.String ("x"))
      ≠ .error (.BinaryOperation (.Unsupported .Bool .String .And)) ∧
    Value.and (.Bool false) (.String ("x")) = .ok (.Bool false) ∧
    Value.or (.Number (.Int 7)) (.Bool true) = .ok (.Bool true) :=
  ⟨(c2_and_or_shortcircuit.1 _ _ (by decide) (by decide)).1,
   (c2_and_or_shortcircuit.2.1 true (.String ("x")) _).1,
   (c2_and_or_shortcircuit.2.2.2.1 (.String ("x"))).2.1,
   (c2_and_or_shortcircuit.2.2.2.2.1 (.Number (.Int 7)) (by decide)).2.2.2⟩

/-- C4: `eq` with a `Null` operand never errs and returns `Bool(true)`
exactly when the other operand is also `Null` (in particular
`Eq(Null, Null) = Bool(true)` and `Eq(Number(10), Null) = Bool(false)`),
while each of `gt`, `lt`, `gte`, `lte` with a `Null` operand fails with
an `Unsupported` binary-operation error. -/
theorem c4_eq_null_comparisons :
    (∀ v : Value,
      Value.eq .Null v = .ok (.Bool (v.type == .Null)) ∧
      Value.eq v .Null = .ok (.Bool (v.type == .Null))) ∧
    (Value.eq .Null .Null = .ok (.Bool true) ∧
      Value.eq (.Number (.Int 10)) .Null = .ok (.Bool false)) ∧
    (∀ v : Value,
      Value.gt .Null v = .error (.BinaryOperation (.Unsupported .Null v.type .Gt)) ∧
      Value.gt v .Null = .error (.BinaryOperation (.Unsupported v.type .Null .Gt)) ∧
      Value.lt .Null v = .error (.BinaryOperation (.Unsupported .Null v.type .Lt)) ∧
      Value.lt v .Null = .error (.BinaryOperation (.Unsupported v.type .Null .Lt)) ∧
      Value.gte .Null v = .error (.BinaryOperation (.Unsupported .Null v.type .Gte)) ∧
      Value.gte v .Null = .error (.BinaryOperation (.Unsupported v.type .Null .Gte)) ∧
      Value.lte .Null v = .error (.BinaryOperation (.Unsupported .Null v.type .Lte)) ∧
      Value.lte v .Null = .error (.BinaryOperation (.Unsupported v.type .Null .Lte))) := by
  refine ⟨?_, ⟨by decide, by decide⟩, ?_⟩
  · intro v
    cases v <;> exact ⟨rfl, rfl⟩
  · intro v
    cases v <;> exact ⟨rfl, rfl, rfl, rfl, rfl, rfl, rfl, rfl⟩

/-- Helper: the interleaved fold of `FieldsProjection.columns` equals the
insert-if-absent fold over the expanded projection. -/
theorem columns_foldl_fusion (fns : List String) :
    ∀ (fp : List Field) (acc : List String),
      List.foldl
        (fun cols f =>
          match f with
          | .Asterisk => fns.foldl (fun cs fn => if fn ∈ cs then cs else cs ++ [fn]) cols
          | .Name n => if n ∈ cols then cols else cols ++ [n])
        acc fp
      = List.foldl (fun cs n => if n ∈ cs then cs else cs ++ [n]) acc
          (expandProjection fns fp) := by
  intro fp
  induction fp with
  | nil => intro acc; simp [expandProjection]
  | cons f fp ih =>
    intro acc
    cases f with
    | Asterisk =>
      simp only [List.foldl_cons, expandProjection, List.map_cons, List.flatten_cons,
        List.foldl_append]
      exact ih _
    | Name n =>
      simp only [List.foldl_cons, expandProjection, List.map_cons, List.flatten_cons,
        List.foldl_append, List.foldl_cons, List.foldl_nil]
      exact ih _

/-- C8: over the record type with declared fields
`[string, number, date_time]`, the computed projection column list is the
first-occurrence de-duplication of the expanded projection (so it
de-duplicates by name and preserves first-occurrence order); in
particular `SELECT *` yields `[string, number, date_time]` and
`SELECT date_time, *` yields `[date_time, string, number]` with no
duplicate. -/
theorem c8_projection_columns :
    (∀ fp : List Field,
      FieldsProjection.columns ⟨fp⟩ c8FieldNames
        = dedupKeepFirst (expandProjection c8FieldNames fp)) ∧
    FieldsProjection.columns ⟨[.Asterisk]⟩ c8FieldNames
      = ["string", "number", "date_time"] ∧
    FieldsProjection.columns ⟨[.Name ("date_time"), .Asterisk]⟩ c8FieldNames
      = ["date_time", "string", "number"] := by
  refine ⟨?_, by decide, by decide⟩
  intro fp
  simpa [FieldsProjection.columns, dedupKeepFirst] using
    columns_foldl_fusion c8FieldNames fp []

/-! ### Helpers about `findIdx?` and the `ResultSet` operations -/

/-- Helper: `findIdx?` misses a name that is not in the list. -/
theorem findIdx?_not_mem (n : String) :
    ∀ (cols : List String) (k : Nat), n ∉ cols →
      List.findIdx? (fun c => c == n) cols k = none := by
  intro cols
  induction cols with
  | nil => intro k _; simp
  | cons c cs ih =>
    intro k h
    have hc : (c == n) = false := beq_eq_false_iff_ne.mpr (fun he => h (by simp [he]))
    rw [List.findIdx?_cons, hc]
    simpa using ih (k + 1) (fun hm => h (by simp [hm]))

/-- Helper: `findIdx?` finds a name appended behind entries that all miss
it, at the index equal to the prefix length. -/
theorem findIdx?_append_self (n : String) :
    ∀ (cols : List String) (k : Nat), n ∉ cols →
      List.findIdx? (fun c => c == n) (cols ++ [n]) k = some (k + cols.length) := by
  intro cols
  induction cols with
  | nil =>
    intro k _
    simp [List.findIdx?_cons]
  | cons c cs ih =>
    intro k h
    have hc : (c == n) = false := beq_eq_false_iff_ne.mpr (fun he => h (by simp [he]))
    rw [List.cons_append, List.findIdx?_cons, hc]
    simp only [if_false, Bool.false_eq_true]
    rw [ih (k + 1) (fun hm => h (by simp [hm]))]
    congr 1
    simp
    omega

/-- Helper: `findIdx?` finds a member at an index within bounds. -/
theorem findIdx?_mem (n : String) :
    ∀ (cols : List String) (k : Nat), n ∈ cols →
      ∃ i, List.findIdx? (fun c => c == n) cols k = some i ∧ i < k + cols.length := by
  intro cols
  induction cols with
  | nil => intro k h; cases h
  | cons c cs ih =>
    intro k h
    by_cases hc : (c == n) = true
    · refine ⟨k, ?_, by simp⟩
      rw [List.findIdx?_cons, hc]
      simp
    · have hcs : n ∈ cs := by
        rcases List.mem_cons.mp h with he | hm
        · exact absurd (beq_iff_eq.mpr he.symm) hc
        · exact hm
      obtain ⟨i, hi, hlt⟩ := ih (k + 1) hcs
      refine ⟨i, ?_, by simpa [Nat.add_assoc, Nat.add_comm 1 cs.length] using hlt⟩
      rw [List.findIdx?_cons]
      simp only [hc, Bool.false_eq_true, if_false]
      exact hi

/-- Helper: `add_column` on a fresh name appends the name and pads every
row. -/
theorem add_column_fresh (rs : ResultSet) (name : String) (h : name ∉ rs.columns) :
    (rs.add_column name).columns = rs.columns ++ [name] ∧
    (rs.add_column name).rows = rs.rows.map (fun row => row ++ [Value.Null]) := by
  constructor <;> simp [ResultSet.add_column, h]

/-- Helper: `add_column` preserves the row-alignment invariant. -/
theorem add_column_aligned (rs : ResultSet) (name : String) (h : rs.RowsAligned) :
    (rs.add_column name).RowsAligned := by
  unfold ResultSet.add_column
  split
  · exact h
  · intro row hrow
    simp only [List.mem_map] at hrow
    obtain ⟨r0, hr0, rfl⟩ := hrow
    simp [h r0 hr0]

/-- Helper: `add_columns` preserves the row-alignment invariant. -/
theorem add_columns_aligned :
    ∀ (cols : List String) (rs : ResultSet), rs.RowsAligned →
      (rs.add_columns cols).RowsAligned := by
  intro cols
  induction cols with
  | nil => intro rs h; exact h
  | cons c cs ih =>
    intro rs h
    have hstep : rs.add_columns (c :: cs) = (rs.add_column c).add_columns cs := by
      simp [ResultSet.add_columns]
    rw [hstep]
    exact ih _ (add_column_aligned rs c h)

/-- Helper: the `add_row` loop keeps the intermediate result set aligned
and the row buffer exactly one slot per column. -/
theorem addRowGo_aligned :
    ∀ (values : List (String × Value)) (rs : ResultSet) (row : List Value),
      rs.RowsAligned → row.length = rs.columns.length →
      (ResultSet.addRowGo rs row values).1.RowsAligned ∧
      (ResultSet.addRowGo rs row values).2.length
        = (ResultSet.addRowGo rs row values).1.columns.length := by
  intro values
  induction values with
  | nil => intro rs row h1 h2; exact ⟨h1, h2⟩
  | cons p rest ih =>
    obtain ⟨name, v⟩ := p
    intro rs row h1 h2
    cases hf : List.findIdx? (fun c => c == name) rs.columns with
    | some id =>
      have hstep : ResultSet.addRowGo rs row ((name, v) :: rest)
          = ResultSet.addRowGo rs (row.set id v) rest := by
        simp [ResultSet.addRowGo, hf]
      rw [hstep]
      exact ih rs (row.set id v) h1 (by simp [List.length_set, h2])
    | none =>
      have hstep : ResultSet.addRowGo rs row ((name, v) :: rest)
          = ResultSet.addRowGo (rs.add_column name) (row ++ [v]) rest := by
        simp [ResultSet.addRowGo, hf]
      rw [hstep]
      have hnm : name ∉ rs.columns := by
        intro hmem
        obtain ⟨i, hi, _⟩ := findIdx?_mem name rs.columns 0 hmem
        rw [hf] at hi
        cases hi
      obtain ⟨hc, _⟩ := add_column_fresh rs name hnm
      refine ih (rs.add_column name) (row ++ [v]) (add_column_aligned rs name h1) ?_
      simp [hc, h2]

/-- Helper: `add_row` preserves the row-alignment invariant. -/
theorem add_row_aligned (rs : ResultSet) (values : List (String × Value))
    (h : rs.RowsAligned) : (rs.add_row values).RowsAligned := by
  have hgo := addRowGo_aligned values rs (List.replicate rs.columns.length Value.Null) h
    (by simp)
  intro row hrow
  simp only [ResultSet.add_row, List.mem_append, List.mem_singleton] at hrow
  rcases hrow with hmem | rfl
  · exact hgo.1 row hmem
  · exact hgo.2

/-- Helper: `add_rows` preserves the row-alignment invariant. -/
theorem add_rows_aligned :
    ∀ (rows : List (List (String × Value))) (rs : ResultSet), rs.RowsAligned →
      (rs.add_rows rows).RowsAligned := by
  intro rows
  induction rows with
  | nil => intro rs h; exact h
  | cons r rest ih =>
    intro rs h
    have hstep : rs.add_rows (r :: rest) = (rs.add_row r).add_rows rest := by
      simp [ResultSet.add_rows]
    rw [hstep]
    exact ih _ (add_row_aligned rs r h)

/-- Helper: every reachable `ResultSet` satisfies the alignment
invariant. -/
theorem reachable_aligned : ∀ rs : ResultSet, ResultSet.Reachable rs → rs.RowsAligned := by
  intro rs h
  induction h with
  | new => intro row hrow; cases hrow
  | with_columns cols =>
    refine add_columns_aligned cols ResultSet.new ?_
    intro row hrow
    cases hrow
  | add_column rs name _ ih => exact add_column_aligned rs name ih
  | add_columns rs cols _ ih => exact add_columns_aligned cols rs ih
  | add_row rs values _ ih => exact add_row_aligned rs values ih
  | add_rows rs rows _ ih => exact add_rows_aligned rows rs ih

/-- C7: every `ResultSet` reachable from `new`/`with_columns` through
`add_column`, `add_columns`, `add_row`, `add_rows` keeps every stored row
at exactly `columns.length` entries; `add_column` on a fresh name
appends the name (index `columns.length`) and appends `Null` to every
existing row, and is a no-op when the column exists. -/
theorem c7_result_set_invariant :
    (∀ rs : ResultSet, ResultSet.Reachable rs → ResultSet.RowsAligned rs) ∧
    (∀ (rs : ResultSet) (name : String), name ∉ rs.columns →
      (rs.add_column name).columns = rs.columns ++ [name] ∧
      (rs.add_column name).rows = rs.rows.map (fun row => row ++ [Value.Null])) ∧
    (∀ (rs : ResultSet) (name : String), name ∈ rs.columns → rs.add_column name = rs) := by
  refine ⟨reachable_aligned, add_column_fresh, ?_⟩
  intro rs name h
  simp [ResultSet.add_column, h]

/-- C7, witness: the invariant on a concrete reachable result set, and
the `add_column` behaviour on concrete fresh and existing names. -/
theorem c7_result_set_invariant_witness :
    ResultSet.RowsAligned ((ResultSet.with_columns (["a"])).add_row [("b", Value.Bool true)]) ∧
    ((ResultSet.with_columns (["a"])).add_column ("c")).columns = ["a", "c"] ∧
    (ResultSet.with_columns (["a"])).add_column ("a") = ResultSet.with_columns (["a"]) :=
  ⟨c7_result_set_invariant.1 _
      (.add_row _ _ (.with_columns _)),
   ((c7_result_set_invariant.2.1 (ResultSet.with_columns (["a"])) ("c")
      (by decide)).1).trans (by decide),
   c7_result_set_invariant.2.2 (ResultSet.with_columns (["a"])) ("a") (by decide)⟩

/-- Helper: the `add_row` loop over pairs that all carry one column name
already present at index `i` only rewrites slot `i` of the row buffer. -/
theorem addRowGo_same_name (n : String) :
    ∀ (xs : List Value) (rs : ResultSet) (row : List Value) (i : Nat),
      List.findIdx? (fun c => c == n) rs.columns = some i →
      ResultSet.addRowGo rs row (xs.map (fun x => (n, x)))
        = (rs, xs.foldl (fun r x => r.set i x) row) := by
  intro xs
  induction xs with
  | nil => intro rs row i _; rfl
  | cons x xs ih =>
    intro rs row i h
    have hstep : ResultSet.addRowGo rs row (((x :: xs)).map (fun x => (n, x)))
        = ResultSet.addRowGo rs (row.set i x) (xs.map (fun x => (n, x))) := by
      simp [ResultSet.addRowGo, h]
    rw [hstep, ih rs (row.set i x) i h]
    rfl

/-- Helper: a fold of `set i` writes preserves the length. -/
theorem foldl_set_length (i : Nat) :
    ∀ (xs : List Value) (r : List Value),
      (xs.foldl (fun acc x => acc.set i x) r).length = r.length := by
  intro xs
  induction xs with
  | nil => intro r; rfl
  | cons x xs ih => intro r; simp [ih, List.length_set]

/-- C10: a single `add_row` whose pairs all carry the same column name
creates at most one slot for that column, the last pair's value wins at
that slot, and the appended row keeps exactly one entry per column. -/
theorem c10_add_row_duplicate_names (rs : ResultSet) (n : String) (vs : List Value) (v : Value) :
    ((rs.add_row ((vs ++ [v]).map (fun x => (n, x)))).columns
      = if n ∈ rs.columns then rs.columns else rs.columns ++ [n]) ∧
    (∃ i row,
      List.findIdx? (fun c => c == n)
        (rs.add_row ((vs ++ [v]).map (fun x => (n, x)))).columns = some i ∧
      (rs.add_row ((vs ++ [v]).map (fun x => (n, x)))).rows.getLast? = some row ∧
      row[i]? = some v ∧
      row.length = (rs.add_row ((vs ++ [v]).map (fun x => (n, x)))).columns.length) := by
  by_cases hmem : n ∈ rs.columns
  · obtain ⟨i, hfind, hlt⟩ := findIdx?_mem n rs.columns 0 hmem
    have hgo := addRowGo_same_name n (vs ++ [v]) rs
      (List.replicate rs.columns.length Value.Null) i hfind
    have hrow : (rs.add_row ((vs ++ [v]).map (fun x => (n, x))))
        = { columns := rs.columns,
            rows := rs.rows ++ [(vs ++ [v]).foldl (fun r x => r.set i x)
              (List.replicate rs.columns.length Value.Null)] } := by
      simp only [ResultSet.add_row]
      rw [hgo]
    rw [hrow]
    refine ⟨by simp [hmem], i,
      (vs ++ [v]).foldl (fun r x => r.set i x) (List.replicate rs.columns.length Value.Null),
      hfind, List.getLast?_concat _, ?_, ?_⟩
    · rw [List.foldl_append]
      simp only [List.foldl_cons, List.foldl_nil]
      refine List.getElem?_set_self ?_
      rw [foldl_set_length]
      simpa using hlt
    · simp [foldl_set_length]
  · have hnone : List.findIdx? (fun c => c == n) rs.columns = none :=
      findIdx?_not_mem n rs.columns 0 hmem
    obtain ⟨hcols, hrows⟩ := add_column_fresh rs n hmem
    have hfind1 : List.findIdx? (fun c => c == n) (rs.add_column n).columns
        = some rs.columns.length := by
      rw [hcols]
      simpa using findIdx?_append_self n rs.columns 0 hmem
    cases vs with
    | nil =>
      have hstep : ResultSet.addRowGo rs (List.replicate rs.columns.length Value.Null)
          ((([] : List Value) ++ [v]).map (fun x => (n, x)))
          = (rs.add_column n, List.replicate rs.columns.length Value.Null ++ [v]) := by
        simp [ResultSet.addRowGo, hnone]
      have hrow : (rs.add_row ((([] : List Value) ++ [v]).map (fun x => (n, x))))
          = { columns := (rs.add_column n).columns,
              rows := (rs.add_column n).rows
                ++ [List.replicate rs.columns.length Value.Null ++ [v]] } := by
        simp only [ResultSet.add_row]
        rw [hstep]
      rw [hrow]
      refine ⟨by simp [hmem, hcols], rs.columns.length,
        List.replicate rs.columns.length Value.Null ++ [v],
        hfind1, List.getLast?_concat _, ?_, ?_⟩
      · simp
      · simp [hcols]
    | cons w ws =>
      have hstep : ResultSet.addRowGo rs (List.replicate rs.columns.length Value.Null)
          ((w :: ws ++ [v]).map (fun x => (n, x)))
          = ResultSet.addRowGo (rs.add_column n)
              (List.replicate rs.columns.length Value.Null ++ [w])
              ((ws ++ [v]).map (fun x => (n, x))) := by
        simp only [List.cons_append, List.map_cons]
        simp [ResultSet.addRowGo, hnone]
      have hgo := addRowGo_same_name n (ws ++ [v]) (rs.add_column n)
        (List.replicate rs.columns.length Value.Null ++ [w]) rs.columns.length hfind1
      have hrow : (rs.add_row ((w :: ws ++ [v]).map (fun x => (n, x))))
          = { columns := (rs.add_column n).columns,
              rows := (rs.add_column n).rows
                ++ [(ws ++ [v]).foldl (fun r x => r.set rs.columns.length x)
                  (List.replicate rs.columns.length Value.Null ++ [w])] } := by
        simp only [ResultSet.add_row]
        rw [hstep, hgo]
      rw [hrow]
      refine ⟨by simp [hmem, hcols], rs.columns.length,
        (ws ++ [v]).foldl (fun r x => r.set rs.columns.length x)
          (List.replicate rs.columns.length Value.Null ++ [w]),
        hfind1, List.getLast?_concat _, ?_, ?_⟩
      · rw [List.foldl_append]
        simp only [List.foldl_cons, List.foldl_nil]
        refine List.getElem?_set_self ?_
        rw [foldl_set_length]
        simp
      · simp [foldl_set_length, hcols]

end TodoList
